import Mathlib

/-!
Shallow embedding of the NavFleet-to-OVD transformation pipeline
(`Navfleet_2_OVD.py`) and proofs about its core data-mapping rules.

Strings are modelled as `List Char` (each cell value is the character
sequence of the Python string); absent values (`None` / `NaN`) are
modelled with `Option`; Python `float` quantities are modelled as `ℚ`;
a Python exception is modelled as `Except.error`.
-/

/-! ## Python string primitives (ASCII model) -/

/-- The whitespace characters removed by Python `str.strip`. -/
def isPySpace (c : Char) : Bool :=
  c = ' ' || c = '\t' || c = '\n' || c = '\r' || c = '\x0b' || c = '\x0c'

/-- Python `str.strip`: drop whitespace from both ends. -/
def pyStrip (l : List Char) : List Char :=
  ((l.dropWhile isPySpace).reverse.dropWhile isPySpace).reverse

/-- Python `str.lower` (ASCII fragment). -/
def pyLower (l : List Char) : List Char := l.map Char.toLower

/-- Python `str.upper` (ASCII fragment). -/
def pyUpper (l : List Char) : List Char := l.map Char.toUpper

/-- Whether the first list is a prefix of the second. -/
def listPre : List Char → List Char → Bool
  | [], _ => true
  | _ :: _, [] => false
  | a :: as, b :: bs => a = b && listPre as bs

/-- Python `needle in hay` substring test. -/
def containsSub : List Char → List Char → Bool
  | n, [] => listPre n []
  | n, c :: cs => listPre n (c :: cs) || containsSub n cs

/-! ## Event Normalizer: `transform_navfleet_data.process_event` -/

/-- Embedding of `process_event` (lines 204-228 of the source): an absent
event passes through; otherwise the text is stripped and the first
matching keyword rule wins. -/
def process_event (e : Option (List Char)) : Option (List Char) :=
  match e with
  | none => none
  | some s =>
    let t := pyStrip s
    if containsSub ("Sea".toList) t then some ("Noon (Position) - Sea passage".toList)
    else if containsSub ("Port".toList) t then some ("Noon (Position) Port".toList)
    else if containsSub ("Arrival".toList) t then some ("Arrival".toList)
    else if containsSub ("Departure".toList) t then some ("Departure".toList)
    else some t

/-- C9: the event normalizer applies its rules in order, first match wins:
"Sea" → the sea-passage label, else "Port" → the port label, else
"Arrival" → "Arrival", else "Departure" → "Departure", else the trimmed
original text; an absent input passes through unchanged. -/
theorem process_event_rules (s : List Char) :
    process_event none = none ∧
    (containsSub ("Sea".toList) (pyStrip s) = true →
      process_event (some s) = some ("Noon (Position) - Sea passage".toList)) ∧
    (containsSub ("Sea".toList) (pyStrip s) = false →
      containsSub ("Port".toList) (pyStrip s) = true →
      process_event (some s) = some ("Noon (Position) Port".toList)) ∧
    (containsSub ("Sea".toList) (pyStrip s) = false →
      containsSub ("Port".toList) (pyStrip s) = false →
      containsSub ("Arrival".toList) (pyStrip s) = true →
      process_event (some s) = some ("Arrival".toList)) ∧
    (containsSub ("Sea".toList) (pyStrip s) = false →
      containsSub ("Port".toList) (pyStrip s) = false →
      containsSub ("Arrival".toList) (pyStrip s) = false →
      containsSub ("Departure".toList) (pyStrip s) = true →
      process_event (some s) = some ("Departure".toList)) ∧
    (containsSub ("Sea".toList) (pyStrip s) = false →
      containsSub ("Port".toList) (pyStrip s) = false →
      containsSub ("Arrival".toList) (pyStrip s) = false →
      containsSub ("Departure".toList) (pyStrip s) = false →
      process_event (some s) = some (pyStrip s)) := by
  refine ⟨rfl, ?_, ?_, ?_, ?_, ?_⟩ <;>
    (intros; simp only [process_event]; simp_all)

/-- Witness for C9 at the spec's own examples: "At Sea - noon report"
becomes the sea-passage label, "Arrival Pilot Station" becomes "Arrival",
and "Standby" is returned unchanged. -/
theorem process_event_rules_witness :
    process_event (some ("At Sea - noon report".toList))
      = some ("Noon (Position) - Sea passage".toList) ∧
    process_event (some ("Arrival Pilot Station".toList)) = some ("Arrival".toList) ∧
    process_event (some ("Standby".toList)) = some ("Standby".toList) :=
  ⟨(process_event_rules ("At Sea - noon report".toList)).2.1 (by decide),
   (process_event_rules ("Arrival Pilot Station".toList)).2.2.2.1 (by decide) (by decide)
     (by decide),
   (process_event_rules ("Standby".toList)).2.2.2.2.2 (by decide) (by decide) (by decide)
     (by decide)⟩

/-! ## Coordinate Converter: `convert_decimal_to_dms` -/

/-- A Python cell value as seen by `convert_decimal_to_dms`: absent
(`None` / `NaN`, for which `pd.isna` is true), a number, or a
non-numeric string (for which the comparison `decimal >= 0` raises
`TypeError`). -/
inductive PyVal where
  | vNone : PyVal
  | vNum : ℚ → PyVal
  | vStr : List Char → PyVal
deriving DecidableEq

/-- Python `round(x, 1)` modelled on rationals: round to the nearest
tenth. -/
def pyRound1 (x : ℚ) : ℚ := (round (10 * x) : ℤ) / 10

/-- Embedding of `convert_decimal_to_dms` (lines 38-48 of the source).
The `vStr` case is `Except.error` because evaluating `decimal >= 0`
on a string raises `TypeError` in Python. -/
def convert_decimal_to_dms (decimal : PyVal) (is_latitude : Bool) :
    Except Unit (Option ℤ × Option ℚ × Option Char) :=
  match decimal with
  | .vNone => .ok (none, none, none)
  | .vStr _ => .error ()
  | .vNum q =>
    let direction : Char :=
      if decide (0 ≤ q) && is_latitude then 'N'
      else if is_latitude then 'S'
      else if decide (0 ≤ q) then 'E' else 'W'
    let a := |q|
    let degrees : ℤ := ⌊a⌋
    let minutes : ℚ := pyRound1 ((a - (degrees : ℚ)) * 60)
    .ok (some degrees, some minutes, some direction)

/-- Rounding to one decimal moves a rational by at most `1/20`. -/
theorem pyRound1_close (x : ℚ) : |pyRound1 x - x| ≤ 1 / 20 := by
  have h := abs_sub_round (10 * x)
  rw [abs_sub_comm] at h
  have h10 : pyRound1 x - x = ((round (10 * x) : ℤ) - 10 * x) / 10 := by
    unfold pyRound1; ring
  rw [h10, abs_div]
  rw [show |(10 : ℚ)| = 10 by norm_num]
  linarith [h]

/-- Closed form of `convert_decimal_to_dms` on a numeric input. -/
theorem convert_vNum_eq (q : ℚ) (is_latitude : Bool) :
    convert_decimal_to_dms (PyVal.vNum q) is_latitude =
      Except.ok (some ⌊|q|⌋, some (pyRound1 ((|q| - (⌊|q|⌋ : ℚ)) * 60)),
        some (if is_latitude then (if 0 ≤ q then 'N' else 'S')
              else (if 0 ≤ q then 'E' else 'W'))) := by
  unfold convert_decimal_to_dms
  by_cases h : 0 ≤ q <;> cases is_latitude <;> simp [h]

/-- C6: for a valid numeric input, `convert_decimal_to_dms` returns the
hemisphere determined by sign and axis (`N`/`S` for latitude, `E`/`W`
for longitude), the integer part of `|d|` as degrees, and
`(|d| - degrees) * 60` rounded to one decimal as minutes; the split
reconstructs `|d|` to within the rounding tolerance `1/1200` of a
degree. -/
theorem convert_decimal_to_dms_valid (q : ℚ) (is_latitude : Bool) :
    convert_decimal_to_dms (PyVal.vNum q) is_latitude =
      Except.ok (some ⌊|q|⌋, some (pyRound1 ((|q| - (⌊|q|⌋ : ℚ)) * 60)),
        some (if is_latitude then (if 0 ≤ q then 'N' else 'S')
              else (if 0 ≤ q then 'E' else 'W'))) ∧
    abs ((⌊|q|⌋ : ℚ) + pyRound1 ((|q| - (⌊|q|⌋ : ℚ)) * 60) / 60 - |q|) ≤ 1 / 1200 := by
  constructor
  · exact convert_vNum_eq q is_latitude
  · have h := pyRound1_close ((|q| - (⌊|q|⌋ : ℚ)) * 60)
    have key : (⌊|q|⌋ : ℚ) + pyRound1 ((|q| - (⌊|q|⌋ : ℚ)) * 60) / 60 - |q| =
        (pyRound1 ((|q| - (⌊|q|⌋ : ℚ)) * 60) - (|q| - (⌊|q|⌋ : ℚ)) * 60) / 60 := by
      ring
    rw [key, abs_div]
    rw [show |(60 : ℚ)| = 60 by norm_num]
    have := abs_nonneg (pyRound1 ((|q| - (⌊|q|⌋ : ℚ)) * 60) - (|q| - (⌊|q|⌋ : ℚ)) * 60)
    linarith [h]

/-- C3 counterexample: at the concrete non-numeric input `"abc"` the
converter raises (`Except.error`) instead of returning the all-absent
triple, refuting the claim that every absent-or-invalid input yields
`(absent, absent, absent)` without failing. -/
theorem convert_decimal_to_dms_str_raises :
    convert_decimal_to_dms (PyVal.vStr ("abc".toList)) true = Except.error () ∧
    convert_decimal_to_dms (PyVal.vStr ("abc".toList)) true ≠
      Except.ok (none, none, none) := by
  refine ⟨rfl, ?_⟩
  intro h
  rw [show convert_decimal_to_dms (PyVal.vStr ("abc".toList)) true = Except.error ()
    from rfl] at h
  exact Except.noConfusion h

/-- C3 (amended): for an absent input (`None`/`NaN`) the converter
returns the all-absent triple without raising, and every numeric input
returns a full triple; only a non-numeric non-absent input raises. -/
theorem convert_decimal_to_dms_absent (is_latitude : Bool) :
    convert_decimal_to_dms PyVal.vNone is_latitude = Except.ok (none, none, none) ∧
    ∀ q : ℚ, ∃ d m dir,
      convert_decimal_to_dms (PyVal.vNum q) is_latitude =
        Except.ok (some d, some m, some dir) := by
  refine ⟨rfl, fun q => ⟨⌊|q|⌋, pyRound1 ((|q| - (⌊|q|⌋ : ℚ)) * 60),
    (if is_latitude then (if 0 ≤ q then 'N' else 'S')
     else (if 0 ≤ q then 'E' else 'W')), ?_⟩⟩
  exact convert_vNum_eq q is_latitude

/-! ## Calendar arithmetic (model of `datetime.date.toordinal`) -/

/-- Gregorian leap-year rule. -/
def isLeap (y : ℕ) : Bool := y % 4 = 0 && (y % 100 ≠ 0 || y % 400 = 0)

/-- Number of days in a month. -/
def daysInMonth (y m : ℕ) : ℕ :=
  if m = 2 then (if isLeap y then 29 else 28)
  else if m = 4 || m = 6 || m = 9 || m = 11 then 30
  else 31

/-- Days in the years `1 .. y-1` (as in CPython's `_days_before_year`). -/
def daysBeforeYear (y : ℕ) : ℕ :=
  let n := y - 1
  365 * n + n / 4 - n / 100 + n / 400

/-- Days in year `y` before month `m`. -/
def daysBeforeMonth (y m : ℕ) : ℕ :=
  (List.range (m - 1)).foldl (fun acc i => acc + daysInMonth y (i + 1)) 0

/-- Proleptic-Gregorian ordinal of a date, with `0001-01-01` mapped
to `1` exactly as in Python's `date.toordinal`. -/
def toOrdinal (y m d : ℕ) : ℕ := daysBeforeYear y + daysBeforeMonth y m + d

/-- A parsed timestamp as a total count of minutes:
`1440 * ordinal + 60 * hour + minute`. -/
def dtMinutes (y m d h mi : ℕ) : ℤ := ((1440 * toOrdinal y m d + 60 * h + mi : ℕ) : ℤ)

/-- The date (ordinal) component of a minute count. -/
def dateOfMinutes (t : ℤ) : ℤ := t.fdiv 1440

/-- The time-of-day (minute-of-day) component of a minute count. -/
def timeOfMinutes (t : ℤ) : ℤ := t.fmod 1440

/-! ## `strptime` modelling for the three accepted layouts -/

/-- Numeric value of a decimal digit character. -/
def digitVal (c : Char) : ℕ := c.toNat - '0'.toNat

/-- Match one exact character. -/
def parseCh (c : Char) : List Char → Option (List Char)
  | x :: rest => if x = c then some rest else none
  | [] => none

/-- Match one-or-more whitespace characters (a space in a `strptime`
format string matches the regex `\s+`). -/
def parseWs : List Char → Option (List Char)
  | x :: rest => if isPySpace x then some (rest.dropWhile isPySpace) else none
  | [] => none

/-- Match exactly four digits (the `%Y` pattern). -/
def parseYear4 : List Char → Option (ℕ × List Char)
  | a :: b :: c :: d :: rest =>
    if a.isDigit && b.isDigit && c.isDigit && d.isDigit then
      some ((((digitVal a * 10 + digitVal b) * 10 + digitVal c) * 10 + digitVal d), rest)
    else none
  | _ => none

/-- Match the `%d` day pattern `3[01]|[12]\d|0[1-9]|[1-9]| [1-9]`:
two digits in `01..31`, one digit `1..9`, or a space followed by a
digit `1..9`. -/
def parseDay : List Char → Option (ℕ × List Char)
  | ' ' :: c :: rest =>
    if c.isDigit && c ≠ '0' then some (digitVal c, rest) else none
  | c1 :: c2 :: rest =>
    if c1.isDigit && c2.isDigit then
      let v := digitVal c1 * 10 + digitVal c2
      if 1 ≤ v && v ≤ 31 then some (v, rest) else none
    else if c1.isDigit && c1 ≠ '0' then some (digitVal c1, c2 :: rest) else none
  | [c] => if c.isDigit && c ≠ '0' then some (digitVal c, []) else none
  | [] => none

/-- Match the `%m` month pattern `1[0-2]|0[1-9]|[1-9]`: two digits in
`01..12` or one digit `1..9`. -/
def parseMonth : List Char → Option (ℕ × List Char)
  | c1 :: c2 :: rest =>
    if c1.isDigit && c2.isDigit then
      let v := digitVal c1 * 10 + digitVal c2
      if 1 ≤ v && v ≤ 12 then some (v, rest) else none
    else if c1.isDigit && c1 ≠ '0' then some (digitVal c1, c2 :: rest) else none
  | [c] => if c.isDigit && c ≠ '0' then some (digitVal c, []) else none
  | [] => none

/-- Match the `%H` hour pattern `2[0-3]|[0-1]\d|\d`: two digits in
`00..23` or one digit. -/
def parseHour : List Char → Option (ℕ × List Char)
  | c1 :: c2 :: rest =>
    if c1.isDigit && c2.isDigit then
      let v := digitVal c1 * 10 + digitVal c2
      if v ≤ 23 then some (v, rest) else none
    else if c1.isDigit then some (digitVal c1, c2 :: rest) else none
  | [c] => if c.isDigit then some (digitVal c, []) else none
  | [] => none

/-- Match the `%M` minute pattern `[0-5]\d|\d`: two digits in `00..59`
or one digit. -/
def parseMinute : List Char → Option (ℕ × List Char)
  | c1 :: c2 :: rest =>
    if c1.isDigit && c2.isDigit then
      let v := digitVal c1 * 10 + digitVal c2
      if v ≤ 59 then some (v, rest) else none
    else if c1.isDigit then some (digitVal c1, c2 :: rest) else none
  | [c] => if c.isDigit then some (digitVal c, []) else none
  | [] => none

/-- Validate the field values as `datetime.datetime(...)` does
(`MINYEAR = 1`; the day must fit the month) and build the minute count. -/
def mkDateTime (y m d h mi : ℕ) : Option ℤ :=
  if 1 ≤ y && 1 ≤ d && d ≤ daysInMonth y m then some (dtMinutes y m d h mi) else none

/-- `strptime` with format `"%d/%m/%Y %H:%M"` (whole string must match). -/
def strptimeDMY (s : List Char) : Option ℤ := do
  let (d, s) ← parseDay s
  let s ← parseCh '/' s
  let (m, s) ← parseMonth s
  let s ← parseCh '/' s
  let (y, s) ← parseYear4 s
  let s ← parseWs s
  let (h, s) ← parseHour s
  let s ← parseCh ':' s
  let (mi, s) ← parseMinute s
  if s.isEmpty then mkDateTime y m d h mi else none

/-- `strptime` with format `"%m/%d/%Y %H:%M"` (whole string must match). -/
def strptimeMDY (s : List Char) : Option ℤ := do
  let (m, s) ← parseMonth s
  let s ← parseCh '/' s
  let (d, s) ← parseDay s
  let s ← parseCh '/' s
  let (y, s) ← parseYear4 s
  let s ← parseWs s
  let (h, s) ← parseHour s
  let s ← parseCh ':' s
  let (mi, s) ← parseMinute s
  if s.isEmpty then mkDateTime y m d h mi else none

/-- `strptime` with format `"%Y-%m-%d %H:%M"` (whole string must match). -/
def strptimeISO (s : List Char) : Option ℤ := do
  let (y, s) ← parseYear4 s
  let s ← parseCh '-' s
  let (m, s) ← parseMonth s
  let s ← parseCh '-' s
  let (d, s) ← parseDay s
  let s ← parseWs s
  let (h, s) ← parseHour s
  let s ← parseCh ':' s
  let (mi, s) ← parseMinute s
  if s.isEmpty then mkDateTime y m d h mi else none

/-- Embedding of the parsing cascade in `adjust_to_utc` (lines 56-69):
the three explicit formats are tried in order and the lenient
`pd.to_datetime(..., errors='coerce', dayfirst=True)` fallback — a
pandas-library routine outside this repository — is a parameter. -/
def parseReportTo (fallback : List Char → Option ℤ) (s : List Char) : Option ℤ :=
  match strptimeDMY s with
  | some t => some t
  | none =>
    match strptimeMDY s with
    | some t => some t
    | none =>
      match strptimeISO s with
      | some t => some t
      | none => fallback s

/-! ## Timezone descriptor: `re.search(r'TVA\/GMT([+-]\d+)', timezone)` -/

/-- Consume an exact literal from the front of a list, returning the
remainder. -/
def dropLiteral : List Char → List Char → Option (List Char)
  | [], l => some l
  | _ :: _, [] => none
  | p :: ps, c :: cs => if c = p then dropLiteral ps cs else none

/-- Parse the `([+-]\d+)` group: a mandatory sign, then a greedy
non-empty digit run, converted by Python `int`. -/
def signedDigits : List Char → Option ℤ
  | [] => none
  | sign :: rest2 =>
    if sign = '+' || sign = '-' then
      let ds := rest2.takeWhile Char.isDigit
      if ds.isEmpty then none
      else
        let v : ℤ := (ds.foldl (fun a c => 10 * a + digitVal c) 0 : ℕ)
        some (if sign = '-' then -v else v)
    else none

/-- Try to match `TVA/GMT` followed by a sign and at least one digit at
the head of the list, returning the signed offset. -/
def tryGmtAt (l : List Char) : Option ℤ :=
  (dropLiteral ("TVA/GMT".toList) l).bind signedDigits

/-- `re.search` of the offset pattern: the leftmost position where the
pattern matches wins. -/
def extractGmtOffset : List Char → Option ℤ
  | [] => none
  | c :: cs =>
    match tryGmtAt (c :: cs) with
    | some n => some n
    | none => extractGmtOffset cs

/-- Embedding of `adjust_to_utc` (lines 50-90): parse, then bail out
with `(none, none)` on parse failure or empty descriptor; pass through
on a `UTC` descriptor; subtract the extracted `TVA/GMT` hour offset;
otherwise `(none, none)`. The Python `try/except` that converts any
unexpected error into `(None, None)` is modelled by this function
being total. It returns `(time, date)`. -/
def adjust_to_utc (fallback : List Char → Option ℤ) (report_to timezone : List Char) :
    Option ℤ × Option ℤ :=
  match parseReportTo fallback report_to with
  | none => (none, none)
  | some t =>
    if timezone = [] then (none, none)
    else if pyUpper (pyStrip timezone) = "UTC".toList then
      (some (timeOfMinutes t), some (dateOfMinutes t))
    else
      match extractGmtOffset timezone with
      | some n =>
        let t2 := t - 60 * n
        (some (timeOfMinutes t2), some (dateOfMinutes t2))
      | none => (none, none)


/-- Non-whitespace test used in the offset-vs-UTC disambiguation
lemmas. -/
def nonWs (c : Char) : Bool := !isPySpace c

/-- A decimal digit is not Python whitespace. -/
theorem digit_nonWs (c : Char) (h : c.isDigit = true) : nonWs c = true := by
  by_cases h1 : c = ' '
  · subst h1; exact absurd h (by decide)
  by_cases h2 : c = '\t'
  · subst h2; exact absurd h (by decide)
  by_cases h3 : c = '\n'
  · subst h3; exact absurd h (by decide)
  by_cases h4 : c = '\r'
  · subst h4; exact absurd h (by decide)
  by_cases h5 : c = '\x0b'
  · subst h5; exact absurd h (by decide)
  by_cases h6 : c = '\x0c'
  · subst h6; exact absurd h (by decide)
  unfold nonWs isPySpace
  simp [h1, h2, h3, h4, h5, h6]

/-- Dropping a whitespace run does not change the non-whitespace count. -/
theorem countP_dropWhile_ws (l : List Char) :
    List.countP nonWs (l.dropWhile isPySpace) = List.countP nonWs l := by
  induction l with
  | nil => rfl
  | cons a l ih =>
    by_cases h : isPySpace a = true
    · rw [List.dropWhile_cons_of_pos h, ih, List.countP_cons]
      simp [nonWs, h]
    · rw [List.dropWhile_cons_of_neg (by simp [h])]

/-- Python `strip` preserves the non-whitespace character count. -/
theorem countP_pyStrip (l : List Char) :
    List.countP nonWs (pyStrip l) = List.countP nonWs l := by
  unfold pyStrip
  rw [List.countP_reverse, countP_dropWhile_ws, List.countP_reverse,
    countP_dropWhile_ws]

/-- A successfully consumed literal is a prefix of the input. -/
theorem dropLiteral_eq {p l r : List Char} (h : dropLiteral p l = some r) :
    l = p ++ r := by
  induction p generalizing l with
  | nil => cases h; rfl
  | cons a p ih =>
    cases l with
    | nil => exact Option.noConfusion h
    | cons c cs =>
      unfold dropLiteral at h
      by_cases hc : c = a
      · rw [if_pos hc] at h
        rw [hc, List.cons_append]
        exact congrArg _ (ih h)
      · rw [if_neg hc] at h
        exact Option.noConfusion h

/-- A successful sign-and-digits match certifies at least two
non-whitespace characters. -/
theorem signedDigits_countP {l : List Char} {n : ℤ} (h : signedDigits l = some n) :
    2 ≤ List.countP nonWs l := by
  cases l with
  | nil => exact Option.noConfusion h
  | cons sign rest2 =>
    simp only [signedDigits] at h
    by_cases hs : (sign = '+' || sign = '-') = true
    · rw [if_pos hs] at h
      by_cases he : (rest2.takeWhile Char.isDigit).isEmpty = true
      · rw [if_pos he] at h; exact Option.noConfusion h
      · have hsgn : nonWs sign = true := by
          rcases Bool.or_eq_true_iff.mp hs with h1 | h1 <;>
            · rw [decide_eq_true_iff] at h1
              subst h1
              decide
        have hone : 0 < List.countP nonWs rest2 := by
          cases hr : rest2.takeWhile Char.isDigit with
          | nil => rw [hr, List.isEmpty_nil] at he; exact absurd rfl he
          | cons d ds =>
            have hmem' : d ∈ rest2.takeWhile Char.isDigit := by
              rw [hr]; exact List.mem_cons_self _ _
            have hmem : d ∈ rest2 :=
              (List.takeWhile_prefix Char.isDigit).sublist.subset hmem'
            have hdig : Char.isDigit d = true := by
              have hall := List.all_takeWhile (p := Char.isDigit) (l := rest2)
              exact List.all_eq_true.mp hall d hmem'
            exact List.countP_pos_iff.mpr ⟨d, hmem, digit_nonWs d hdig⟩
        rw [List.countP_cons, hsgn]
        simp only [if_true]
        omega
    · rw [if_neg hs] at h; exact Option.noConfusion h

/-- A successful offset match at the head of a list certifies at least
nine non-whitespace characters (`TVA/GMT`, a sign, one digit). -/
theorem tryGmtAt_countP {l : List Char} {n : ℤ} (h : tryGmtAt l = some n) :
    9 ≤ List.countP nonWs l := by
  unfold tryGmtAt at h
  rcases Option.bind_eq_some.mp h with ⟨rest, hd, hsd⟩
  rw [dropLiteral_eq hd, List.countP_append]
  have h2 := signedDigits_countP hsd
  have h7 : List.countP nonWs ("TVA/GMT".toList) = 7 := by decide
  omega

/-- A matched offset descriptor has at least nine non-whitespace
characters. -/
theorem extractGmtOffset_countP {tz : List Char} {n : ℤ}
    (h : extractGmtOffset tz = some n) : 9 ≤ List.countP nonWs tz := by
  induction tz with
  | nil => exact Option.noConfusion h
  | cons c cs ih =>
    unfold extractGmtOffset at h
    cases ht : tryGmtAt (c :: cs) with
    | some m => exact tryGmtAt_countP ht
    | none =>
      rw [ht] at h
      have := ih h
      rw [List.countP_cons]
      omega

/-- A descriptor that matches the `TVA/GMT` offset pattern is nonempty. -/
theorem extractGmtOffset_ne_nil {tz : List Char} {n : ℤ}
    (h : extractGmtOffset tz = some n) : tz ≠ [] := by
  intro he; subst he; exact Option.noConfusion h

/-- A descriptor that matches the `TVA/GMT` offset pattern cannot strip
and upper-case to `UTC` (it has too many non-whitespace characters). -/
theorem extractGmtOffset_ne_utc {tz : List Char} {n : ℤ}
    (h : extractGmtOffset tz = some n) :
    pyUpper (pyStrip tz) ≠ "UTC".toList := by
  intro heq
  have h9 : 9 ≤ List.countP nonWs tz := extractGmtOffset_countP h
  have hlen : (pyUpper (pyStrip tz)).length = 3 := by rw [heq]; rfl
  have hlen' : (pyStrip tz).length = 3 := by
    rw [← hlen]; exact (List.length_map _ _).symm
  have hle : List.countP nonWs (pyStrip tz) ≤ 3 := by
    rw [← hlen']; exact List.countP_le_length _
  rw [countP_pyStrip] at hle
  omega

/-- C4: for every timestamp string and timezone descriptor (and any
behaviour of the lenient fallback parser), the timezone normalizer
returns either both a time and a date or both absent, never a partial
result; an unparseable timestamp, an empty descriptor, or a descriptor
that is neither `UTC` nor a `TVA/GMT±N` pattern each yield
`(absent, absent)`.  The Python-side `try/except` (errors caught, not
raised) is modelled by `adjust_to_utc` being a total function. -/
theorem adjust_to_utc_total (fallback : List Char → Option ℤ) (s tz : List Char) :
    (adjust_to_utc fallback s tz = (none, none) ∨
      ∃ ti d, adjust_to_utc fallback s tz = (some ti, some d)) ∧
    (parseReportTo fallback s = none → adjust_to_utc fallback s tz = (none, none)) ∧
    (tz = [] → adjust_to_utc fallback s tz = (none, none)) ∧
    (pyUpper (pyStrip tz) ≠ "UTC".toList → extractGmtOffset tz = none →
      adjust_to_utc fallback s tz = (none, none)) := by
  refine ⟨?_, ?_, ?_, ?_⟩
  · cases hp : parseReportTo fallback s with
    | none => exact Or.inl (by simp only [adjust_to_utc, hp])
    | some t =>
      by_cases hz : tz = []
      · exact Or.inl (by simp only [adjust_to_utc, hp]; rw [if_pos hz])
      · by_cases hu : pyUpper (pyStrip tz) = "UTC".toList
        · exact Or.inr ⟨_, _, by simp only [adjust_to_utc, hp]; rw [if_neg hz, if_pos hu]⟩
        · cases hx : extractGmtOffset tz with
          | none =>
            exact Or.inl (by simp only [adjust_to_utc, hp]; rw [if_neg hz, if_neg hu, hx])
          | some m =>
            exact Or.inr ⟨_, _, by simp only [adjust_to_utc, hp]; rw [if_neg hz, if_neg hu, hx]⟩
  · intro hp; simp only [adjust_to_utc, hp]
  · intro hz
    cases hp : parseReportTo fallback s with
    | none => simp only [adjust_to_utc, hp]
    | some t => simp only [adjust_to_utc, hp]; rw [if_pos hz]
  · intro hu hx
    cases hp : parseReportTo fallback s with
    | none => simp only [adjust_to_utc, hp]
    | some t =>
      by_cases hz : tz = []
      · simp only [adjust_to_utc, hp]; rw [if_pos hz]
      · simp only [adjust_to_utc, hp]; rw [if_neg hz, if_neg hu, hx]

/-- Witness for C4 at concrete inputs: an unparseable timestamp with an
empty descriptor yields `(absent, absent)`. -/
theorem adjust_to_utc_total_witness :
    adjust_to_utc (fun _ => none) ("garbage".toList) [] = (none, none) :=
  (adjust_to_utc_total (fun _ => none) ("garbage".toList) []).2.2.1 rfl

/-- C5: whenever the timestamp parses to `t` and the descriptor matches
`TVA/GMT` with signed offset `n`, the normalizer returns the
time-of-day and date of `t` minus `n` hours; the returned pair is the
exact floor decomposition of `t - 60 n` minutes into a day ordinal and
a minute-of-day in `[0, 1440)`, so subtraction crossing midnight rolls
the date backward or forward. -/
theorem adjust_to_utc_gmt_offset (fallback : List Char → Option ℤ)
    (s tz : List Char) (t n : ℤ)
    (hp : parseReportTo fallback s = some t)
    (hx : extractGmtOffset tz = some n) :
    adjust_to_utc fallback s tz =
      (some (timeOfMinutes (t - 60 * n)), some (dateOfMinutes (t - 60 * n))) ∧
    1440 * dateOfMinutes (t - 60 * n) + timeOfMinutes (t - 60 * n) = t - 60 * n ∧
    0 ≤ timeOfMinutes (t - 60 * n) ∧ timeOfMinutes (t - 60 * n) < 1440 := by
  refine ⟨?_, ?_, ?_, ?_⟩
  · simp only [adjust_to_utc, hp]
    rw [if_neg (extractGmtOffset_ne_nil hx), if_neg (extractGmtOffset_ne_utc hx), hx]
  · unfold dateOfMinutes timeOfMinutes
    have h := Int.fdiv_add_fmod (t - 60 * n) 1440
    omega
  · exact Int.fmod_nonneg' _ (by norm_num)
  · exact Int.fmod_lt_of_pos _ (by norm_num)

/-- Witness for C5 at the spec's example: `02/05/2024 02:00` local with
descriptor `TVA/GMT+3` becomes `23:00` (minute 1380) on the previous
day (ordinal of 2024-05-02 minus one). -/
theorem adjust_to_utc_gmt_offset_witness :
    adjust_to_utc (fun _ => none) ("02/05/2024 02:00".toList) ("TVA/GMT+3".toList) =
      (some 1380, some ((toOrdinal 2024 5 2 : ℤ) - 1)) := by
  have h := (adjust_to_utc_gmt_offset (fun _ => none) ("02/05/2024 02:00".toList)
    ("TVA/GMT+3".toList) 1064171640 3 rfl rfl).1
  rw [h]
  rfl

/-! ## Fuel Consumption Aggregator: `map_fuel_type_consumption` -/

/-- The `fuel_type_to_ME_column` mapping table (lines 104-116). -/
def fuelTypeToMEColumn : List (List Char × String) :=
  [("hfo".toList, "ME_Consumption_HFO"),
   ("vlsfo2020".toList, "ME_Consumption_HFO"),
   ("lfo".toList, "ME_Consumption_LFO"),
   ("mgo".toList, "ME_Consumption_MGO"),
   ("ulsmgo2020".toList, "ME_Consumption_MGO"),
   ("mdo".toList, "ME_Consumption_MDO"),
   ("lng".toList, "ME_Consumption_LNG"),
   ("lpgp".toList, "ME_Consumption_LPGP"),
   ("lpgb".toList, "ME_Consumption_LPGB"),
   ("m".toList, "ME_Consumption_M"),
   ("e".toList, "ME_Consumption_E")]

/-- The `fuel_type_to_AE_column` mapping table (lines 117-129); note the
source's `ulsmgo2020` entry routes to an ME-named column. -/
def fuelTypeToAEColumn : List (List Char × String) :=
  [("hfo".toList, "AE_Consumption_HFO"),
   ("vlsfo2020".toList, "AE_Consumption_HFO"),
   ("lfo".toList, "AE_Consumption_LFO"),
   ("mgo".toList, "AE_Consumption_MGO"),
   ("ulsmgo2020".toList, "ME_Consumption_MGO"),
   ("mdo".toList, "AE_Consumption_MDO"),
   ("lng".toList, "AE_Consumption_LNG"),
   ("lpgp".toList, "AE_Consumption_LPGP"),
   ("lpgb".toList, "AE_Consumption_LPGB"),
   ("m".toList, "AE_Consumption_M"),
   ("e".toList, "AE_Consumption_E")]

/-- The `fuel_type_to_Boiler_column` mapping table (lines 130-142); note
the source's `ulsmgo2020` entry routes to the malformed
`ME_Consumption_MGOO` column. -/
def fuelTypeToBoilerColumn : List (List Char × String) :=
  [("hfo".toList, "Boiler_Consumption_HFO"),
   ("vlsfo2020".toList, "Boiler_Consumption_HFO"),
   ("lfo".toList, "Boiler_Consumption_LFO"),
   ("mgo".toList, "Boiler_Consumption_MGO"),
   ("ulsmgo2020".toList, "ME_Consumption_MGOO"),
   ("mdo".toList, "Boiler_Consumption_MDO"),
   ("lng".toList, "Boiler_Consumption_LNG"),
   ("lpgp".toList, "Boiler_Consumption_LPGP"),
   ("lpgb".toList, "Boiler_Consumption_LPGB"),
   ("m".toList, "Boiler_Consumption_M"),
   ("e".toList, "Boiler_Consumption_E")]

/-- Every target column named by the three mapping tables. -/
def allTargetCols : List String :=
  fuelTypeToMEColumn.map Prod.snd ++ fuelTypeToAEColumn.map Prod.snd ++
    fuelTypeToBoilerColumn.map Prod.snd

/-- One input row of the NavFleet table together with the table-level
presence of the six fuel-slot columns.  The consumption-column state is
`prior : String → Option ℚ` (`none` = column absent from the input
table).  Fuel-type cells are the strings after the source's
`astype(str)` coercion; quantity cells are `none` for `NaN` (the
source applies `fillna(0)`). -/
structure NavTable where
  ft1Pres : Bool
  ft1MEPres : Bool
  ft1AEPres : Bool
  ft1BoilPres : Bool
  ft2Pres : Bool
  ft2TotPres : Bool
  ft3Pres : Bool
  ft3TotPres : Bool
  ft1 : List Char
  ft2 : List Char
  ft3 : List Char
  qME : Option ℚ
  qAE : Option ℚ
  qBoil : Option ℚ
  q2 : Option ℚ
  q3 : Option ℚ
  prior : String → Option ℚ

/-- Column initialization (lines 144-161): every column named by the
three tables is created with value `0.0` if absent, or coerced to float
if present. -/
def initCols (prior : String → Option ℚ) : String → Option ℚ :=
  fun c => if c ∈ allTargetCols then some ((prior c).getD 0) else prior c

/-- `navfleet_data.loc[mask, target_col] += qty` for one row: add `qty`
to the (present) target column. -/
def bump (f : String → Option ℚ) (tgt : String) (q : ℚ) : String → Option ℚ :=
  fun c => if c = tgt then (f c).map (· + q) else f c

/-- One mapping pass (one `for fuel_type, target_col in table.items()`
loop): the row's fuel-type string is stripped and lower-cased and
compared with each key; a matching key adds the quantity to its target
column. -/
def applySlot (tbl : List (List Char × String)) (ft : List Char) (q : ℚ)
    (f : String → Option ℚ) : String → Option ℚ :=
  tbl.foldl (fun g p => if pyLower (pyStrip ft) = p.1 then bump g p.2 q else g) f

/-- One guarded mapping pass: it runs only when both guard columns are
present in the table (`if 'Fuel Type i' in navfleet_data and ... in
navfleet_data`), and the quantity cell gets `fillna(0)`. -/
def guardedPass (b : Bool) (tbl : List (List Char × String)) (ft : List Char)
    (q : Option ℚ) (f : String → Option ℚ) : String → Option ℚ :=
  if b then applySlot tbl ft (q.getD 0) f else f

/-- Embedding of `map_fuel_type_consumption` (lines 99-198) restricted
to the consumption columns of one row: initialization, then the five
guarded mapping passes in source order (innermost first).  Passes 2
and 3 (slot-1 AE and slot-1 boiler quantities, lines 170-182) iterate
over `fuel_type_to_ME_column` exactly as the source does. -/
def map_fuel_type_consumption (t : NavTable) : String → Option ℚ :=
  guardedPass (t.ft3Pres && t.ft3TotPres) fuelTypeToBoilerColumn t.ft3 t.q3
    (guardedPass (t.ft2Pres && t.ft2TotPres) fuelTypeToAEColumn t.ft2 t.q2
      (guardedPass (t.ft1Pres && t.ft1BoilPres) fuelTypeToMEColumn t.ft1 t.qBoil
        (guardedPass (t.ft1Pres && t.ft1AEPres) fuelTypeToMEColumn t.ft1 t.qAE
          (guardedPass (t.ft1Pres && t.ft1MEPres) fuelTypeToMEColumn t.ft1 t.qME
            (initCols t.prior)))))

/-- Whether the first list is a prefix of the second (generic). -/
def hasPre (p : List Char) (c : String) : Bool := listPre p (c.toList)

/-- The consumption columns of the transformed output row: the transform
(lines 262-275) copies every column whose name starts with
`ME_Consumption_`, `AE_Consumption_` or `Boiler_Consumption_` from the
aggregated NavFleet row. -/
def outputConsumption (t : NavTable) : String → Option ℚ :=
  fun c =>
    if hasPre ("ME_Consumption_".toList) c || hasPre ("AE_Consumption_".toList) c ||
        hasPre ("Boiler_Consumption_".toList) c then
      map_fuel_type_consumption t c
    else none

/-- Whether any of the row's three fuel-type strings routes (through the
table its slot actually uses in the source) to column `c`. -/
def slotsTouch (t : NavTable) (c : String) : Bool :=
  fuelTypeToMEColumn.any (fun p => pyLower (pyStrip t.ft1) = p.1 && p.2 = c) ||
    fuelTypeToAEColumn.any (fun p => pyLower (pyStrip t.ft2) = p.1 && p.2 = c) ||
    fuelTypeToBoilerColumn.any (fun p => pyLower (pyStrip t.ft3) = p.1 && p.2 = c)

/-- Unfolding the mapping pass over one table entry. -/
theorem applySlot_cons (p : List Char × String) (tbl : List (List Char × String))
    (ft : List Char) (q : ℚ) (f : String → Option ℚ) :
    applySlot (p :: tbl) ft q f =
      applySlot tbl ft q (if pyLower (pyStrip ft) = p.1 then bump f p.2 q else f) := rfl

/-- `bump` never changes whether a column is present. -/
theorem bump_isSome (f : String → Option ℚ) (tgt : String) (q : ℚ) (c : String) :
    ((bump f tgt q) c).isSome = (f c).isSome := by
  unfold bump
  by_cases h : c = tgt
  · rw [if_pos h]; cases f c <;> rfl
  · rw [if_neg h]

/-- A mapping pass never removes a present column. -/
theorem applySlot_isSome (tbl : List (List Char × String)) (ft : List Char) (q : ℚ)
    (f : String → Option ℚ) (c : String) (h : (f c).isSome = true) :
    ((applySlot tbl ft q f) c).isSome = true := by
  induction tbl generalizing f with
  | nil => exact h
  | cons p tbl ih =>
    rw [applySlot_cons]
    apply ih
    by_cases hc : pyLower (pyStrip ft) = p.1
    · rw [if_pos hc, bump_isSome]; exact h
    · rw [if_neg hc]; exact h

/-- A mapping pass leaves every column it does not route to unchanged. -/
theorem applySlot_untouched (tbl : List (List Char × String)) (ft : List Char) (q : ℚ)
    (f : String → Option ℚ) (c : String)
    (h : tbl.any (fun p => pyLower (pyStrip ft) = p.1 && p.2 = c) = false) :
    (applySlot tbl ft q f) c = f c := by
  induction tbl generalizing f with
  | nil => rfl
  | cons p tbl ih =>
    rw [List.any_cons] at h
    have h1 : (pyLower (pyStrip ft) = p.1 && p.2 = c) = false := by
      cases hx : (decide (pyLower (pyStrip ft) = p.1) && decide (p.2 = c)) with
      | false => rfl
      | true => rw [hx] at h; exact absurd h (by simp)
    have h2 : tbl.any (fun p => pyLower (pyStrip ft) = p.1 && p.2 = c) = false := by
      cases hx : tbl.any (fun p => pyLower (pyStrip ft) = p.1 && p.2 = c) with
      | false => rfl
      | true => rw [hx] at h; exact absurd h (by simp)
    rw [applySlot_cons, ih _ h2]
    by_cases hc : pyLower (pyStrip ft) = p.1
    · rw [if_pos hc]
      unfold bump
      have hne : ¬(c = p.2) := by
        intro hcc
        rw [Bool.and_eq_false_iff] at h1
        rcases h1 with h1 | h1
        · exact absurd hc (by simpa using h1)
        · exact absurd hcc.symm (by simpa using h1)
      rw [if_neg hne]
    · rw [if_neg hc]

/-- A guarded pass never removes a present column. -/
theorem guardedPass_isSome (b : Bool) (tbl : List (List Char × String))
    (ft : List Char) (q : Option ℚ) (f : String → Option ℚ) (c : String)
    (h : (f c).isSome = true) : ((guardedPass b tbl ft q f) c).isSome = true := by
  unfold guardedPass
  cases b
  · exact h
  · rw [if_pos rfl]; exact applySlot_isSome _ _ _ _ _ h

/-- A guarded pass leaves every column its fuel type does not route to
unchanged. -/
theorem guardedPass_untouched (b : Bool) (tbl : List (List Char × String))
    (ft : List Char) (q : Option ℚ) (f : String → Option ℚ) (c : String)
    (h : tbl.any (fun p => pyLower (pyStrip ft) = p.1 && p.2 = c) = false) :
    (guardedPass b tbl ft q f) c = f c := by
  unfold guardedPass
  cases b
  · rfl
  · rw [if_pos rfl]; exact applySlot_untouched _ _ _ _ _ h

/-- The concrete table row used to exercise the slot-1 routing bug:
fuel type 1 is `hfo`, with main-engine quantity 1, auxiliary-engine
quantity 2 and boiler quantity 3; slots 2 and 3 are absent; no
consumption column pre-exists. -/
def bugRow : NavTable :=
  ⟨true, true, true, true, false, false, false, false,
   "hfo".toList, [], [], some 1, some 2, some 3, none, none, fun _ => none⟩

/-- C1 (evaluation at the failing input): for a row with slot-1 fuel
type `hfo` and slot-1 quantities ME = 1, AE = 2, boiler = 3, the source
adds all three quantities into `ME_Consumption_HFO` (yielding 6) and
leaves `AE_Consumption_HFO` and `Boiler_Consumption_HFO` at 0, because
the slot-1 AE and boiler passes iterate over `fuel_type_to_ME_column`
(lines 173 and 180) — contradicting both the claim and the source's own
comments, which say those passes map to `AE_Consumption_*` and
`Boiler_Consumption_*` columns. -/
theorem map_fuel_slot1_misroutes :
    map_fuel_type_consumption bugRow "ME_Consumption_HFO" = some 6 ∧
    map_fuel_type_consumption bugRow "AE_Consumption_HFO" = some 0 ∧
    map_fuel_type_consumption bugRow "Boiler_Consumption_HFO" = some 0 :=
  ⟨by with_unfolding_all rfl, by with_unfolding_all rfl, by with_unfolding_all rfl⟩

/-- C7: every target column named by the three mapping tables is present
(`some` value) in the aggregated output row, and it holds exactly `0.0`
whenever the input table had no such column and none of the row's fuel
slots routes to it. -/
theorem consumption_columns_complete (t : NavTable) (c : String)
    (hmem : c ∈ allTargetCols) :
    (∃ v, outputConsumption t c = some v) ∧
    (t.prior c = none → slotsTouch t c = false → outputConsumption t c = some 0) := by
  have hpre : (hasPre ("ME_Consumption_".toList) c || hasPre ("AE_Consumption_".toList) c ||
      hasPre ("Boiler_Consumption_".toList) c) = true := by
    have hall : allTargetCols.all
        (fun c => hasPre ("ME_Consumption_".toList) c || hasPre ("AE_Consumption_".toList) c ||
          hasPre ("Boiler_Consumption_".toList) c) = true := by decide
    exact List.all_eq_true.mp hall c hmem
  have hout : outputConsumption t c = map_fuel_type_consumption t c := by
    unfold outputConsumption
    rw [if_pos hpre]
  constructor
  · have h0 : ((initCols t.prior) c).isSome = true := by
      unfold initCols
      rw [if_pos hmem]
      rfl
    have h5 : (map_fuel_type_consumption t c).isSome = true := by
      unfold map_fuel_type_consumption
      exact guardedPass_isSome _ _ _ _ _ _ (guardedPass_isSome _ _ _ _ _ _
        (guardedPass_isSome _ _ _ _ _ _ (guardedPass_isSome _ _ _ _ _ _
          (guardedPass_isSome _ _ _ _ _ _ h0))))
    rw [hout]
    exact Option.isSome_iff_exists.mp h5
  · intro hprior htouch
    unfold slotsTouch at htouch
    have hME : fuelTypeToMEColumn.any
        (fun p => pyLower (pyStrip t.ft1) = p.1 && p.2 = c) = false := by
      rcases Bool.or_eq_false_iff.mp htouch with ⟨h12, _⟩
      exact (Bool.or_eq_false_iff.mp h12).1
    have hAE : fuelTypeToAEColumn.any
        (fun p => pyLower (pyStrip t.ft2) = p.1 && p.2 = c) = false := by
      rcases Bool.or_eq_false_iff.mp htouch with ⟨h12, _⟩
      exact (Bool.or_eq_false_iff.mp h12).2
    have hBoil : fuelTypeToBoilerColumn.any
        (fun p => pyLower (pyStrip t.ft3) = p.1 && p.2 = c) = false :=
      (Bool.or_eq_false_iff.mp htouch).2
    rw [hout]
    unfold map_fuel_type_consumption
    rw [guardedPass_untouched _ _ _ _ _ _ hBoil, guardedPass_untouched _ _ _ _ _ _ hAE,
      guardedPass_untouched _ _ _ _ _ _ hME, guardedPass_untouched _ _ _ _ _ _ hME,
      guardedPass_untouched _ _ _ _ _ _ hME]
    unfold initCols
    rw [if_pos hmem, hprior]
    rfl

/-- Witness for C7 at a concrete row with no fuel data at all: the
`ME_Consumption_HFO` column still exists with value `0.0`. -/
theorem consumption_columns_complete_witness :
    outputConsumption
      ⟨false, false, false, false, false, false, false, false,
        [], [], [], none, none, none, none, none, fun _ => none⟩
      "ME_Consumption_HFO" = some 0 :=
  (consumption_columns_complete
      ⟨false, false, false, false, false, false, false, false,
        [], [], [], none, none, none, none, none, fun _ => none⟩
      "ME_Consumption_HFO" (by decide)).2 rfl (by decide)

/-! ## Record Transformer post-processing (lines 277-289): combine the
UTC date and time into a temporal key, sort ascending, drop the key -/

/-- One already-transformed output row: the resolved UTC date (day
ordinal) and UTC time (minute of day), both absent when the timezone
normalizer failed, plus the remaining columns abstracted as an opaque
payload string. -/
structure TRow where
  date_utc : Option ℤ
  time_utc : Option ℤ
  payload : String
deriving DecidableEq

/-- The combined `DateTime_UTC` key:
`pd.to_datetime(str(Date_UTC) + ' ' + str(Time_UTC), errors='coerce')`
parses to a valid datetime exactly when both parts are present, and to
`NaT` (`none`) otherwise. -/
def combineKey (r : TRow) : Option ℤ :=
  match r.date_utc, r.time_utc with
  | some d, some t => some (1440 * d + t)
  | _, _ => none

/-- Ascending comparison on combined keys with `NaT` sorted last
(pandas `sort_values` default `na_position='last'`). -/
def keyLeB : Option ℤ → Option ℤ → Bool
  | some a, some b => decide (a ≤ b)
  | some _, none => true
  | none, some _ => false
  | none, none => true

/-- Row comparison used by the sort: compare attached keys. -/
def pairLE (x y : TRow × Option ℤ) : Prop := keyLeB x.2 y.2 = true

instance : DecidableRel pairLE := fun x y => instDecidableEqBool _ _

/-- Row-level ordering: ascending by combined key, `NaT` last. -/
def rowLE (x y : TRow) : Prop := keyLeB (combineKey x) (combineKey y) = true

/-- Attach the temporary combined key column to every row. -/
def addKey (rows : List TRow) : List (TRow × Option ℤ) :=
  rows.map (fun r => (r, combineKey r))

/-- Embedding of the post-processing (lines 277-289): attach the
combined `DateTime_UTC` key, sort ascending by it, then drop the key
column.  The source sorts with pandas `sort_values`, whose order on
tied keys is unspecified; the model fixes the stable insertion-sort
order. -/
def sortTransformed (rows : List TRow) : List TRow :=
  (List.insertionSort pairLE (addKey rows)).map Prod.fst

/-- `keyLeB` is total. -/
theorem keyLeB_total (a b : Option ℤ) : keyLeB a b = true ∨ keyLeB b a = true := by
  cases a <;> cases b <;> simp [keyLeB] <;> omega

/-- `keyLeB` is transitive. -/
theorem keyLeB_trans (a b c : Option ℤ) (h1 : keyLeB a b = true)
    (h2 : keyLeB b c = true) : keyLeB a c = true := by
  cases a <;> cases b <;> cases c <;> simp_all [keyLeB] <;> omega

instance : IsTotal (TRow × Option ℤ) pairLE :=
  ⟨fun a b => keyLeB_total a.2 b.2⟩

instance : IsTrans (TRow × Option ℤ) pairLE :=
  ⟨fun a b c => keyLeB_trans a.2 b.2 c.2⟩

/-- Every pair in the sorted keyed list carries the key of its row. -/
theorem addKey_snd (rows : List TRow) (p : TRow × Option ℤ)
    (hp : p ∈ List.insertionSort pairLE (addKey rows)) : p.2 = combineKey p.1 := by
  have hmem : p ∈ addKey rows := (List.perm_insertionSort pairLE (addKey rows)).mem_iff.mp hp
  rcases List.mem_map.mp hmem with ⟨r, _, hr⟩
  rw [← hr]

/-- The sort returns a permutation of the input rows (the temporary key
column is dropped; rows themselves are unchanged). -/
theorem sortTransformed_perm (rows : List TRow) : (sortTransformed rows).Perm rows := by
  unfold sortTransformed
  have h := (List.perm_insertionSort pairLE (addKey rows)).map Prod.fst
  have h2 : (addKey rows).map Prod.fst = rows := by
    unfold addKey
    rw [List.map_map]
    exact List.map_id _
  rw [h2] at h
  exact h

/-- The sort output is ascending in the combined key (`NaT` last). -/
theorem sortTransformed_sorted (rows : List TRow) :
    List.Pairwise rowLE (sortTransformed rows) := by
  unfold sortTransformed
  rw [List.pairwise_map]
  have hs : List.Pairwise pairLE (List.insertionSort pairLE (addKey rows)) :=
    List.sorted_insertionSort pairLE (addKey rows)
  exact List.Pairwise.imp_of_mem
    (fun ha hb hab => by
      unfold rowLE
      rw [← addKey_snd rows _ ha, ← addKey_snd rows _ hb]
      exact hab) hs

/-- C8: the transformer's post-processing sorts the rows ascending by
the combined UTC-date-and-time key and returns exactly the input rows
(a permutation; the temporary key column is dropped, as
`sortTransformed` returns plain rows), and for three rows whose
resolved timestamps arrive in the order T2, T1, T3 with T1 < T2 < T3,
the output order is T1, T2, T3. -/
theorem sortTransformed_spec (rows : List TRow) (r1 r2 r3 : TRow) (t1 t2 t3 : ℤ) :
    (sortTransformed rows).Perm rows ∧
    List.Pairwise rowLE (sortTransformed rows) ∧
    (combineKey r1 = some t1 → combineKey r2 = some t2 → combineKey r3 = some t3 →
      t1 < t2 → t2 < t3 → sortTransformed [r2, r1, r3] = [r1, r2, r3]) := by
  refine ⟨sortTransformed_perm rows, sortTransformed_sorted rows, ?_⟩
  intro h1 h2 h3 h12 h23
  unfold sortTransformed addKey
  simp only [List.map_cons, List.map_nil, List.insertionSort]
  rw [List.orderedInsert_nil]
  have hle13 : pairLE (r1, combineKey r1) (r3, combineKey r3) := by
    unfold pairLE
    rw [h1, h3]
    unfold keyLeB
    simp only [decide_eq_true_iff]
    omega
  have hle23 : pairLE (r2, combineKey r2) (r3, combineKey r3) := by
    unfold pairLE
    rw [h2, h3]
    unfold keyLeB
    simp only [decide_eq_true_iff]
    omega
  have hnle21 : ¬ pairLE (r2, combineKey r2) (r1, combineKey r1) := by
    unfold pairLE
    rw [h2, h1]
    unfold keyLeB
    simp only [decide_eq_true_iff]
    omega
  rw [List.orderedInsert_of_le pairLE _ hle13]
  rw [List.orderedInsert, if_neg hnle21]
  rw [List.orderedInsert_of_le pairLE _ hle23]
  rfl

/-- Witness for C8 at concrete rows: input keyed 2026, 2025, 2027 (by
date ordinal) comes out keyed 2025, 2026, 2027. -/
theorem sortTransformed_spec_witness :
    sortTransformed
      [⟨some 2026, some 0, "b"⟩, ⟨some 2025, some 0, "a"⟩, ⟨some 2027, some 0, "c"⟩] =
      [⟨some 2025, some 0, "a"⟩, ⟨some 2026, some 0, "b"⟩, ⟨some 2027, some 0, "c"⟩] :=
  (sortTransformed_spec []
      ⟨some 2025, some 0, "a"⟩ ⟨some 2026, some 0, "b"⟩ ⟨some 2027, some 0, "c"⟩
      (1440 * 2025) (1440 * 2026) (1440 * 2027)).2.2
    (by decide) (by decide) (by decide) (by decide) (by decide)

/-- C10: in the sorted output, any row whose combined UTC key is
unresolved (`NaT`) appears only after every row with a resolved key:
whatever stands at an earlier position than a resolved-key row also has
a resolved key — equivalently, once an unresolved row appears, all
later rows are unresolved. -/
theorem unresolved_rows_sort_last (rows : List TRow) (i j : ℕ) (hij : i < j)
    (ri rj : TRow)
    (hi : (sortTransformed rows)[i]? = some ri)
    (hj : (sortTransformed rows)[j]? = some rj)
    (hk : combineKey ri = none) : combineKey rj = none := by
  have hjlen : j < (sortTransformed rows).length := by
    by_contra hge
    rw [List.getElem?_eq_none (le_of_not_lt hge)] at hj
    exact Option.noConfusion hj
  have hilen : i < (sortTransformed rows).length := lt_trans hij hjlen
  have hgi : (sortTransformed rows).get ⟨i, hilen⟩ = ri := by
    rw [List.getElem?_eq_getElem hilen] at hi
    exact Option.some.inj hi
  have hgj : (sortTransformed rows).get ⟨j, hjlen⟩ = rj := by
    rw [List.getElem?_eq_getElem hjlen] at hj
    exact Option.some.inj hj
  have hsorted : List.Sorted rowLE (sortTransformed rows) := sortTransformed_sorted rows
  have hrel : rowLE ((sortTransformed rows).get ⟨i, hilen⟩)
      ((sortTransformed rows).get ⟨j, hjlen⟩) :=
    hsorted.rel_get_of_lt (Fin.mk_lt_mk.mpr hij)
  rw [hgi, hgj] at hrel
  unfold rowLE at hrel
  rw [hk] at hrel
  cases hc : combineKey rj with
  | none => rfl
  | some t => rw [hc] at hrel; exact Bool.noConfusion hrel

/-- Witness for C10 at a concrete two-row table whose keys are both
unresolved: the row at the later position also has an unresolved key. -/
theorem unresolved_rows_sort_last_witness :
    combineKey (⟨none, some 3, "y"⟩ : TRow) = none :=
  unresolved_rows_sort_last
    [⟨none, none, "x"⟩, ⟨none, some 3, "y"⟩] 0 1 (by norm_num)
    ⟨none, none, "x"⟩ ⟨none, some 3, "y"⟩ (by decide) (by decide) rfl

/-! ## Port Code Resolver: `update_voyage_columns` and `map_values` -/

/-- One row of the port reference table. -/
structure RefRow where
  nameWoDiacritics : List Char
  country : List Char
  location : List Char

/-- The normalized reference mapping built by `update_voyage_columns`
(lines 296-298): key = lower-cased then stripped port name, value =
first five characters of country + location. -/
def refMapOf (ref : List RefRow) : List (List Char × List Char) :=
  ref.map (fun r => (pyStrip (pyLower r.nameWoDiacritics), (r.country ++ r.location).take 5))

/-- Lookup in the Python `dict(zip(keys, values))`: a later duplicate
key overwrites an earlier one. -/
def dictGet (m : List (List Char × List Char)) (k : List Char) : Option (List Char) :=
  m.foldl (fun acc p => if p.1 = k then some p.2 else acc) none

/-- Normalization applied to an output cell before lookup
(`.str.lower().str.strip()`); a non-string (`NaN`) cell stays `NaN`. -/
def normCell (v : Option (List Char)) : Option (List Char) :=
  v.map (fun s => pyStrip (pyLower s))

/-- Embedding of `map_values` (lines 92-97) at one (already normalized)
cell: `column.map(reference_map).fillna(column)` replaces a matched
value by its mapped target and leaves an unmatched value as the (fed-in)
value itself. -/
def map_values (m : List (List Char × List Char)) (v : Option (List Char)) :
    Option (List Char) :=
  match v with
  | none => none
  | some s =>
    match dictGet m s with
    | some code => some code
    | none => some s

/-- What `update_voyage_columns` stores back into a voyage cell: the
cell is normalized, then mapped through the reference dictionary. -/
def resolveCell (m : List (List Char × List Char)) (v : Option (List Char)) :
    Option (List Char) :=
  map_values m (normCell v)

/-- The output table as seen by the resolver: the two voyage columns
with their table-level presence flags. -/
structure OutTable where
  hasFrom : Bool
  hasTo : Bool
  voyageFrom : List (Option (List Char))
  voyageTo : List (Option (List Char))

/-- Embedding of `update_voyage_columns` (lines 291-315) restricted to
the two voyage columns: each present column is normalized and mapped
through the reference table; an absent column is skipped (with a
diagnostic only). -/
def update_voyage_columns (t : OutTable) (ref : List RefRow) : OutTable :=
  { t with
    voyageFrom :=
      if t.hasFrom then t.voyageFrom.map (resolveCell (refMapOf ref)) else t.voyageFrom
    voyageTo :=
      if t.hasTo then t.voyageTo.map (resolveCell (refMapOf ref)) else t.voyageTo }

/-- C2 counterexample: with an empty reference table (so nothing
matches), the unmatched value `"Hamburg"` in `Voyage_To` is written
back lower-cased as `"hamburg"` — it is altered, not left equal to its
original text, refuting the claim's pass-through-unchanged reading. -/
theorem update_voyage_unmatched_not_original :
    (update_voyage_columns ⟨true, true, [], [some ("Hamburg".toList)]⟩ []).voyageTo =
      [some ("hamburg".toList)] ∧
    some ("hamburg".toList) ≠ some ("Hamburg".toList) := by
  exact ⟨by decide, by decide⟩

/-- C2 (amended): for each present voyage column, every cell is replaced
by `resolveCell`; a cell whose normalized (lower-cased, trimmed) text
has no match in the reference mapping is written back as that
normalized text (so it is never nulled and is unchanged only up to
normalization), a matched cell is written back as its PortCode, and an
absent cell stays absent. -/
theorem update_voyage_columns_spec (t : OutTable) (ref : List RefRow) (s : List Char) :
    (t.hasFrom = true →
      (update_voyage_columns t ref).voyageFrom =
        t.voyageFrom.map (resolveCell (refMapOf ref))) ∧
    (t.hasTo = true →
      (update_voyage_columns t ref).voyageTo =
        t.voyageTo.map (resolveCell (refMapOf ref))) ∧
    (dictGet (refMapOf ref) (pyStrip (pyLower s)) = none →
      resolveCell (refMapOf ref) (some s) = some (pyStrip (pyLower s))) ∧
    (∀ code, dictGet (refMapOf ref) (pyStrip (pyLower s)) = some code →
      resolveCell (refMapOf ref) (some s) = some code) ∧
    resolveCell (refMapOf ref) none = none := by
  refine ⟨?_, ?_, ?_, ?_, rfl⟩
  · intro h; unfold update_voyage_columns; rw [if_pos h]
  · intro h; unfold update_voyage_columns; rw [if_pos h]
  · intro h
    unfold resolveCell normCell map_values
    simp only [Option.map_some']
    rw [h]
  · intro code h
    unfold resolveCell normCell map_values
    simp only [Option.map_some']
    rw [h]

/-- Witness for C2 (amended) at the spec's own example: reference row
(Rotterdam, NL, ROTT) gives PortCode `NLROT`; the cell `" Rotterdam "`
matches case/space-insensitively and becomes `NLROT`, while the
unmatched cell `"Hamburg"` becomes its normalized text `"hamburg"`. -/
theorem update_voyage_columns_spec_witness :
    resolveCell (refMapOf [⟨"Rotterdam".toList, "NL".toList, "ROTT".toList⟩])
      (some (" Rotterdam ".toList)) = some ("NLROT".toList) ∧
    resolveCell (refMapOf [⟨"Rotterdam".toList, "NL".toList, "ROTT".toList⟩])
      (some ("Hamburg".toList)) = some ("hamburg".toList) :=
  ⟨(update_voyage_columns_spec ⟨true, true, [], []⟩
      [⟨"Rotterdam".toList, "NL".toList, "ROTT".toList⟩] (" Rotterdam ".toList)).2.2.2.1
      ("NLROT".toList) (by decide),
   (update_voyage_columns_spec ⟨true, true, [], []⟩
      [⟨"Rotterdam".toList, "NL".toList, "ROTT".toList⟩] ("Hamburg".toList)).2.2.1
      (by decide)⟩
